import Mathlib

/-!
Verification of the alzense core algorithms: spatial clustering of mood
entries, calm/stress zone classification and merging, session insight
synthesis, route calmness scoring, and fallback route synthesis.

Modelling conventions for the TypeScript source:
* JavaScript numbers are modelled as exact rationals (`ℚ`); decimal
  literals such as `0.6`, `0.1`, `0.05` become `3/5`, `1/10`, `1/20`.
* Timestamps (epoch milliseconds) are modelled as `ℤ`, counts as `ℕ`.
* `GPSService.calculateDistance` is the haversine great-circle distance, a
  transcendental function; every algorithm consumes it as a black box, so
  the embedding is parametrised by an arbitrary distance function
  `dist : Location → Location → ℚ`, applied with the exact argument order
  of each call site.
* `Date.now()`/`Math.random()` based fresh-id generation is modelled by an
  injected `fresh : ℕ → String` source consumed via a counter, and the
  `Math.random()` jitter stream of the fallback route generator by an
  injected `rand : ℕ → ℚ` indexed by call order.
* `new Date(ts).getHours()` (local time) is modelled by an abstract
  `hourOf : ℤ → ℤ` parameter.
-/

namespace Alzense

/-- `Mood` from src/types/index.ts: 'calm' | 'neutral' | 'stressed'. -/
inductive Mood where
  | calm
  | neutral
  | stressed
deriving DecidableEq, Repr

/-- `Location` from src/types/index.ts. -/
structure Location where
  latitude : ℚ
  longitude : ℚ
  accuracy : Option ℚ := none
  timestamp : ℤ
deriving DecidableEq, Repr

/-- `MoodEntry` from src/types/index.ts (optional `notes` omitted: unused). -/
structure MoodEntry where
  id : String
  location : Location
  mood : Mood
  noiseLevel : ℚ
  timestamp : ℤ
deriving DecidableEq, Repr

/-- `WalkSession` from src/types/index.ts (optional `summary` omitted: unused). -/
structure WalkSession where
  id : String
  startTime : ℤ
  endTime : Option ℤ := none
  moodEntries : List MoodEntry
  totalDistance : Option ℚ := none
  averageNoise : Option ℚ := none
  stressCount : ℕ
  calmCount : ℕ
  neutralCount : ℕ
deriving DecidableEq, Repr

/-- `CalmZone` from src/types/index.ts. -/
structure CalmZone where
  id : String
  center : Location
  radius : ℚ
  calmScore : ℚ
  visitCount : ℕ
  lastVisited : ℤ
deriving DecidableEq, Repr

/-- `StressZone` from src/types/index.ts. -/
structure StressZone where
  id : String
  center : Location
  radius : ℚ
  stressScore : ℚ
  stressCount : ℕ
  lastStressed : ℤ
deriving DecidableEq, Repr

/-- The transient cluster record built by `InsightsService.clusterNearbyEntries`:
`{ center: Location; entries: MoodEntry[] }`. -/
structure Cluster where
  center : Location
  entries : List MoodEntry
deriving DecidableEq, Repr

/-- `RoutePoint` from the routing service: `{ latitude, longitude }`. -/
structure RoutePoint where
  latitude : ℚ
  longitude : ℚ
deriving DecidableEq, Repr

/-- The routing code wraps a `RoutePoint` as
`{ latitude: point.latitude, longitude: point.longitude, timestamp: 0 }`. -/
def toLoc (p : RoutePoint) : Location :=
  { latitude := p.latitude, longitude := p.longitude, accuracy := none, timestamp := 0 }

/-- JavaScript `Math.round`: round half toward positive infinity. -/
def jsRound (q : ℚ) : ℤ := ⌊q + 1/2⌋

/-- JavaScript `Math.max(...entries.map(e => e.timestamp))` over a non-empty
cluster member list (the sole uses are on non-empty lists; the `[]` value is
never reached there). -/
def maxTimestamp : List MoodEntry → ℤ
  | [] => 0
  | e :: es => es.foldl (fun m x => max m x.timestamp) e.timestamp

/-- `cluster.entries.filter(e => e.mood === 'stressed').length / cluster.entries.length`. -/
def stressRate (entries : List MoodEntry) : ℚ :=
  ((entries.filter fun e => decide (e.mood = Mood.stressed)).length : ℚ) /
    (entries.length : ℚ)

/-- `cluster.entries.filter(e => e.mood === 'calm').length / cluster.entries.length`. -/
def calmRate (entries : List MoodEntry) : ℚ :=
  ((entries.filter fun e => decide (e.mood = Mood.calm)).length : ℚ) /
    (entries.length : ℚ)

/-- Value-level model of `array.find(p)` followed by an in-place mutation of the
found record: rewrite the first element satisfying `p` with `f`. -/
def updateFirst (p : α → Bool) (f : α → α) : List α → List α
  | [] => []
  | x :: xs => if p x then f x :: xs else x :: updateFirst p f xs

/-- Inner loop of `InsightsService.clusterNearbyEntries`: scan one candidate
`other` against the current anchor; skip it when it is the anchor itself or
already processed, otherwise add it to the cluster members and mark its id
processed when it lies within `radius` of the anchor's location. -/
def addNearby (dist : Location → Location → ℚ) (radius : ℚ) (anchor : MoodEntry)
    (acc : List MoodEntry × List String) (other : MoodEntry) :
    List MoodEntry × List String :=
  if other.id = anchor.id ∨ other.id ∈ acc.2 then acc
  else if dist anchor.location other.location ≤ radius then
    (acc.1 ++ [other], acc.2 ++ [other.id])
  else acc

/-- Outer loop of `InsightsService.clusterNearbyEntries`: iterate entries in
input order, skipping processed ones; an unprocessed entry anchors a new
cluster whose members are gathered by scanning the entire input list. -/
def clusterGo (dist : Location → Location → ℚ) (radius : ℚ) (all : List MoodEntry) :
    List MoodEntry → List Cluster × List String → List Cluster × List String
  | [], st => st
  | e :: rest, (cs, proc) =>
    if e.id ∈ proc then clusterGo dist radius all rest (cs, proc)
    else
      clusterGo dist radius all rest
        (cs ++ [{ center := e.location,
                  entries := e :: (all.foldl (addNearby dist radius e) ([], proc)).1 }],
          (all.foldl (addNearby dist radius e) ([], proc)).2 ++ [e.id])

/-- `InsightsService.clusterNearbyEntries(entries, radiusMeters)`
(src/services/audio.ts lines 280-307). -/
def clusterNearbyEntries (dist : Location → Location → ℚ) (entries : List MoodEntry)
    (radius : ℚ) : List Cluster :=
  (clusterGo dist radius entries entries ([], [])).1

/-- The concatenated members of a cluster list, used to state partition facts. -/
def clusterEntries (cs : List Cluster) : List MoodEntry :=
  (cs.map Cluster.entries).flatten

/-- The evolving state of `InsightsService.updateZonesFromSession`: the two zone
arrays plus a counter feeding the injected fresh-id source. -/
structure ZoneState where
  calmZones : List CalmZone
  stressZones : List StressZone
  counter : ℕ
deriving DecidableEq, Repr

/-- One iteration of the `clusters.forEach` body of
`InsightsService.updateZonesFromSession` (src/services/audio.ts lines 321-370):
classify the cluster by its stress/calm rate (stress checked first, both
requiring at least 2 members), then either mutate the first existing zone of
the matching kind within 50 m of the cluster center, or push a fresh zone with
radius 30 carrying the cluster's rate, member count and maximum timestamp. -/
def processCluster (dist : Location → Location → ℚ) (fresh : ℕ → String)
    (st : ZoneState) (cluster : Cluster) : ZoneState :=
  let n := cluster.entries.length
  let near := fun (c : Location) => decide (dist c cluster.center < 50)
  let mergeStressed := fun (z : StressZone) =>
    { z with
      stressCount := z.stressCount + n,
      stressScore := min 1 (z.stressScore + 1/10),
      lastStressed := max z.lastStressed (maxTimestamp cluster.entries) }
  let newStressZone : StressZone :=
    { id := fresh st.counter, center := cluster.center, radius := 30,
      stressScore := stressRate cluster.entries, stressCount := n,
      lastStressed := maxTimestamp cluster.entries }
  let mergeCalm := fun (z : CalmZone) =>
    { z with
      visitCount := z.visitCount + n,
      calmScore := min 1 (z.calmScore + 1/10),
      lastVisited := max z.lastVisited (maxTimestamp cluster.entries) }
  let newCalmZone : CalmZone :=
    { id := fresh st.counter, center := cluster.center, radius := 30,
      calmScore := calmRate cluster.entries, visitCount := n,
      lastVisited := maxTimestamp cluster.entries }
  if stressRate cluster.entries > 3/5 ∧ n ≥ 2 then
    if st.stressZones.any (fun z => near z.center) then
      { st with stressZones :=
          updateFirst (fun z => near z.center) mergeStressed st.stressZones }
    else
      { st with stressZones := st.stressZones ++ [newStressZone],
                counter := st.counter + 1 }
  else if calmRate cluster.entries > 3/5 ∧ n ≥ 2 then
    if st.calmZones.any (fun z => near z.center) then
      { st with calmZones :=
          updateFirst (fun z => near z.center) mergeCalm st.calmZones }
    else
      { st with calmZones := st.calmZones ++ [newCalmZone],
                counter := st.counter + 1 }
  else st

/-- `InsightsService.updateZonesFromSession(session, existingCalmZones,
existingStressZones)` (src/services/audio.ts lines 310-373): cluster the
session's mood entries at radius 30 and fold the per-cluster classification
over copies of the two zone stores. -/
def updateZonesFromSession (dist : Location → Location → ℚ) (fresh : ℕ → String)
    (session : WalkSession) (existingCalmZones : List CalmZone)
    (existingStressZones : List StressZone) : ZoneState :=
  (clusterNearbyEntries dist session.moodEntries 30).foldl
    (processCluster dist fresh)
    { calmZones := existingCalmZones, stressZones := existingStressZones, counter := 0 }

/-- Aliasing model for the JS mutation semantics of `updateZonesFromSession`:
the function copies the input arrays (`[...existingStressZones]`) but shares
the zone records, mutates matched records in place, and only ever appends new
records to the copy. Hence after the call, the contents of the caller's input
array are exactly the first `n` records of the returned store, where `n` is
the input length. -/
def inputStressZonesAfterCall (dist : Location → Location → ℚ) (fresh : ℕ → String)
    (session : WalkSession) (existingCalmZones : List CalmZone)
    (existingStressZones : List StressZone) : List StressZone :=
  (updateZonesFromSession dist fresh session existingCalmZones
      existingStressZones).stressZones.take existingStressZones.length

/-- Calm-side counterpart of `inputStressZonesAfterCall`. -/
def inputCalmZonesAfterCall (dist : Location → Location → ℚ) (fresh : ℕ → String)
    (session : WalkSession) (existingCalmZones : List CalmZone)
    (existingStressZones : List StressZone) : List CalmZone :=
  (updateZonesFromSession dist fresh session existingCalmZones
      existingStressZones).calmZones.take existingCalmZones.length

/-- One `zones.forEach` block of `RoutingService.analyzeRouteOptimization`:
for each zone containing the current waypoint (closed boundary,
`isWithinRadius` is `calculateDistance(center, point) <= radius`), shift the
score by `delta` and record the zone id if not already recorded. -/
def zoneScan (dist : Location → Location → ℚ) (pl : Location) (delta : ℚ)
    (zid : α → String) (zcenter : α → Location) (zradius : α → ℚ)
    (zones : List α) (acc : ℚ × List String) : ℚ × List String :=
  zones.foldl
    (fun p z =>
      if dist (zcenter z) pl ≤ zradius z then
        (p.1 + delta, if zid z ∈ p.2 then p.2 else p.2 ++ [zid z])
      else p)
    acc

/-- Body of the `waypoints.forEach` loop of
`RoutingService.analyzeRouteOptimization`: check one waypoint against all
stress zones, then all calm zones. -/
def routeStep (dist : Location → Location → ℚ) (calmZones : List CalmZone)
    (stressZones : List StressZone) (acc : ℚ × List String × List String)
    (point : RoutePoint) : ℚ × List String × List String :=
  let pl := toLoc point
  let s := zoneScan dist pl (-(1/10)) StressZone.id StressZone.center
    StressZone.radius stressZones (acc.1, acc.2.1)
  let c := zoneScan dist pl (1/20) CalmZone.id CalmZone.center
    CalmZone.radius calmZones (s.1, acc.2.2)
  (c.1, s.2, c.2)

/-- `RoutingService.analyzeRouteOptimization(waypoints, calmZones, stressZones)`
(src/unnamed/part_001 lines 1029-1067): base score 0.5; per waypoint, −0.1 per
containing stress zone and +0.05 per containing calm zone with deduplicated id
lists; final score clamped to [0,1]. -/
def analyzeRouteOptimization (dist : Location → Location → ℚ)
    (waypoints : List RoutePoint) (calmZones : List CalmZone)
    (stressZones : List StressZone) : ℚ × List String × List String :=
  let r := waypoints.foldl (routeStep dist calmZones stressZones)
    ((1/2 : ℚ), ([] : List String), ([] : List String))
  (max 0 (min 1 r.1), r.2.1, r.2.2)

/-- Number of (waypoint, stress zone) containment pairs of a route. -/
def stressHits (dist : Location → Location → ℚ) (waypoints : List RoutePoint)
    (stressZones : List StressZone) : ℕ :=
  (waypoints.map fun p =>
    (stressZones.filter fun z => decide (dist z.center (toLoc p) ≤ z.radius)).length).sum

/-- Number of (waypoint, calm zone) containment pairs of a route. -/
def calmHits (dist : Location → Location → ℚ) (waypoints : List RoutePoint)
    (calmZones : List CalmZone) : ℕ :=
  (waypoints.map fun p =>
    (calmZones.filter fun z => decide (dist z.center (toLoc p) ≤ z.radius)).length).sum

/-- `steps = Math.max(3, Math.min(8, Math.floor(distance / 200)))` from
`RoutingService.generateIntermediateWaypoints`. -/
def fallbackSteps (d : ℚ) : ℤ := max 3 (min 8 (Int.floor (d / 200)))

/-- `RoutingService.generateIntermediateWaypoints(start, end)`
(src/unnamed/part_001 lines 1160-1184): `steps+1` waypoints by linear
interpolation, each perturbed by `(Math.random() - 0.5) * 0.0001` on latitude
and longitude; the jitter source is injected as `rand`, indexed by call order
(two calls per waypoint, latitude first). -/
def generateIntermediateWaypoints (dist : Location → Location → ℚ) (rand : ℕ → ℚ)
    (start endLoc : Location) : List RoutePoint :=
  let distance := dist start endLoc
  let steps := (fallbackSteps distance).toNat
  (List.range (steps + 1)).map fun (i : ℕ) =>
    let frac : ℚ := (i : ℚ) / (steps : ℚ)
    let lat := start.latitude + (endLoc.latitude - start.latitude) * frac
    let lng := start.longitude + (endLoc.longitude - start.longitude) * frac
    let latVariation := (rand ((2 * i : ℕ)) - 1/2) * (1/10000)
    let lngVariation := (rand ((2 * i + 1 : ℕ)) - 1/2) * (1/10000)
    { latitude := lat + latVariation, longitude := lng + lngVariation }

/-- `RouteSuggestion` from src/types/index.ts (`end` renamed `endLoc`). -/
structure RouteSuggestion where
  id : String
  start : Location
  endLoc : Location
  waypoints : List Location
  calmScore : ℚ
  estimatedDuration : ℤ
  avoidsStressZones : List String
  includesCalmZones : List String
deriving DecidableEq, Repr

/-- `InsightsService.generateRouteSuggestion(start, end, calmZones,
stressZones)` (src/services/audio.ts lines 376-426). The nondeterministic
`route_${Date.now()}` id is injected as `routeId`. -/
def generateRouteSuggestion (dist : Location → Location → ℚ) (routeId : String)
    (start endLoc : Location) (calmZones : List CalmZone)
    (stressZones : List StressZone) : RouteSuggestion :=
  let nearbyCalmZones := calmZones.filter fun zone =>
    decide (dist start zone.center < 200 ∧ dist endLoc zone.center < 200)
  let nearbyStressZones := stressZones.filter fun zone =>
    decide (dist start zone.center < 200 ∧ dist endLoc zone.center < 200)
  let wpScore : List Location × ℚ :=
    match nearbyCalmZones with
    | [] => ([], 1/2)
    | z :: zs =>
      let bestCalmZone := zs.foldl
        (fun best current => if current.calmScore > best.calmScore then current else best) z
      ([bestCalmZone.center], 1/2 + bestCalmZone.calmScore * (3/10))
  let calmScore := wpScore.2 - (nearbyStressZones.length : ℚ) * (1/5)
  let totalDistance := dist start endLoc
  let estimatedDuration := jsRound (totalDistance / 1000 * 12)
  { id := routeId, start := start, endLoc := endLoc, waypoints := wpScore.1,
    calmScore := max 0 (min 1 calmScore), estimatedDuration := estimatedDuration,
    avoidsStressZones := nearbyStressZones.map StressZone.id,
    includesCalmZones := nearbyCalmZones.map CalmZone.id }

/-- The highest calm score among a zone list, 0 when the list is empty; used to
state what `generateRouteSuggestion` adds to its base score. -/
def highestCalmScore : List CalmZone → ℚ
  | [] => 0
  | z :: zs => (zs.map CalmZone.calmScore).foldl max z.calmScore

/-- The overall-tone sentence of `InsightsService.generateSessionInsights`. -/
def toneSentence (stressCount calmCount : ℕ) (stressPercentage calmPercentage : ℤ) :
    String :=
  if stressCount > calmCount then
    "The walk had more stressful moments (" ++ toString stressPercentage ++
      "%) than calm ones."
  else if calmCount > stressCount then
    "The walk was mostly peaceful (" ++ toString calmPercentage ++ "% calm moments)."
  else
    "The walk had a balanced mix of emotions."

/-- The noise-correlation sentence of `InsightsService.generateSessionInsights`. -/
def noiseSentence (instances : ℕ) (correlation : ℤ) : String :=
  "High noise levels (" ++ toString instances ++
    " instances) often correlated with stress (" ++ toString correlation ++
    "% of the time)."

/-- The time-of-day sentence of `InsightsService.analyzeTimePatterns`. -/
def timeSentence (period : String) : String :=
  "Consider walking more in the " ++ period ++ " when stress levels are lower."

/-- `InsightsService.analyzeTimePatterns(morning, afternoon, evening)`
(src/services/audio.ts lines 219-249): per-period stress rates (0 for an empty
period), best period by strict-< reduce, worst by strict->, and a sentence
only when best < 0.2 and worst > 0.4. -/
def analyzeTimePatterns (morning afternoon evening : List MoodEntry) : Option String :=
  let rate := fun (es : List MoodEntry) =>
    if es.length > 0 then
      ((es.filter fun e => decide (e.mood = Mood.stressed)).length : ℚ) / (es.length : ℚ)
    else 0
  let p0 : String × ℚ := ("morning", rate morning)
  let p1 : String × ℚ := ("afternoon", rate afternoon)
  let p2 : String × ℚ := ("evening", rate evening)
  let bestPeriod := [p1, p2].foldl (fun best current =>
    if current.2 < best.2 then current else best) p0
  let worstPeriod := [p1, p2].foldl (fun worst current =>
    if current.2 > worst.2 then current else worst) p0
  if bestPeriod.2 < 1/5 ∧ worstPeriod.2 > 2/5 then some (timeSentence bestPeriod.1)
  else none

/-- `InsightsService.analyzeLocationPatterns(entries)` (src/services/audio.ts
lines 252-277): nothing below 3 entries; otherwise recluster at 50 m and
report stress clusters (rate > 0.6) first, then calm clusters. -/
def analyzeLocationPatterns (dist : Location → Location → ℚ)
    (entries : List MoodEntry) : Option String :=
  if entries.length < 3 then none
  else
    let clusters := clusterNearbyEntries dist entries 50
    let stressClusters := clusters.filter fun c => decide (stressRate c.entries > 3/5)
    let calmClusters := clusters.filter fun c => decide (calmRate c.entries > 3/5)
    if stressClusters.length > 0 then
      some "Some areas consistently triggered stress. Consider avoiding these locations."
    else if calmClusters.length > 0 then
      some "Some areas consistently provided calm moments. These might be good rest spots."
    else none

/-- The `insights` array built by `InsightsService.generateSessionInsights`
(src/services/audio.ts lines 159-215) for a session with at least one entry:
overall tone, optional noise correlation, optional time-of-day pattern,
optional location pattern, in this order. -/
def insightsList (hourOf : ℤ → ℤ) (dist : Location → Location → ℚ)
    (session : WalkSession) : List String :=
  let moodEntries := session.moodEntries
  let totalEntries := moodEntries.length
  let stressPercentage := jsRound ((session.stressCount : ℚ) / (totalEntries : ℚ) * 100)
  let calmPercentage := jsRound ((session.calmCount : ℚ) / (totalEntries : ℚ) * 100)
  let tone := toneSentence session.stressCount session.calmCount
    stressPercentage calmPercentage
  let highNoiseEntries := moodEntries.filter fun e => decide (e.noiseLevel > 60)
  let highNoiseStressed := highNoiseEntries.filter fun e =>
    decide (e.mood = Mood.stressed)
  let noiseOpt : Option String :=
    if highNoiseStressed.length > 0 then
      some (noiseSentence highNoiseStressed.length
        (jsRound ((highNoiseStressed.length : ℚ) / (highNoiseEntries.length : ℚ) * 100)))
    else none
  let morningEntries := moodEntries.filter fun e =>
    decide (6 ≤ hourOf e.timestamp ∧ hourOf e.timestamp < 12)
  let afternoonEntries := moodEntries.filter fun e =>
    decide (12 ≤ hourOf e.timestamp ∧ hourOf e.timestamp < 18)
  let eveningEntries := moodEntries.filter fun e =>
    decide (18 ≤ hourOf e.timestamp ∨ hourOf e.timestamp < 6)
  let timeOpt := analyzeTimePatterns morningEntries afternoonEntries eveningEntries
  let locOpt := analyzeLocationPatterns dist moodEntries
  tone :: (noiseOpt.toList ++ timeOpt.toList ++ locOpt.toList)

/-- `InsightsService.generateSessionInsights(session)` (src/services/audio.ts
lines 159-216): the fixed no-data message on an empty entry list, otherwise
the space-joined insight sentences. -/
def generateSessionInsights (hourOf : ℤ → ℤ) (dist : Location → Location → ℚ)
    (session : WalkSession) : String :=
  if session.moodEntries.length = 0 then "No mood data recorded for this walk."
  else String.intercalate " " (insightsList hourOf dist session)

/-! Concrete sample inputs used by witnesses and counterexamples. -/

/-- A concrete distance function (everything at distance 0) for witnesses. -/
def dist0 : Location → Location → ℚ := fun _ _ => 0

/-- A concrete fresh-id source for witnesses. -/
def fresh0 : ℕ → String := fun _ => "fresh"

/-- A concrete local-hour function for witnesses. -/
def hour0 : ℤ → ℤ := fun _ => 9

/-- A concrete location. -/
def locO : Location := { latitude := 0, longitude := 0, timestamp := 0 }

/-- A stressed mood entry at `locO`. -/
def entryStress1 : MoodEntry :=
  { id := "e1", location := locO, mood := Mood.stressed, noiseLevel := 50, timestamp := 10 }

/-- A second stressed mood entry at `locO`. -/
def entryStress2 : MoodEntry :=
  { id := "e2", location := locO, mood := Mood.stressed, noiseLevel := 50, timestamp := 20 }

/-- A session with two stressed entries at the same place. -/
def sessionTwoStressed : WalkSession :=
  { id := "s1", startTime := 0, moodEntries := [entryStress1, entryStress2],
    stressCount := 2, calmCount := 0, neutralCount := 0 }

/-- A session with no mood entries. -/
def emptySession : WalkSession :=
  { id := "s0", startTime := 0, moodEntries := [],
    stressCount := 0, calmCount := 0, neutralCount := 0 }

/-- A concrete stress zone. -/
def zoneS0 : StressZone :=
  { id := "z0", center := locO, radius := 30, stressScore := 1/2, stressCount := 1,
    lastStressed := 0 }

/-- A concrete calm zone. -/
def zoneC0 : CalmZone :=
  { id := "c0", center := locO, radius := 30, calmScore := 1/2, visitCount := 1,
    lastVisited := 0 }

/-- A concrete route point. -/
def pt0 : RoutePoint := { latitude := 0, longitude := 0 }

/-- The cluster holding the two stressed sample entries. -/
def clusterW : Cluster := { center := locO, entries := [entryStress1, entryStress2] }

/-- Positionwise id/center/radius preservation between an input stress store
and an evolved one. -/
def zoneShapeStress (a b : List StressZone) : Prop :=
  a.length ≤ b.length ∧
  ∀ (i : ℕ) (z z' : StressZone), a[i]? = some z → b[i]? = some z' →
    z'.id = z.id ∧ z'.center = z.center ∧ z'.radius = z.radius

/-- Positionwise id/center/radius preservation between an input calm store and
an evolved one. -/
def zoneShapeCalm (a b : List CalmZone) : Prop :=
  a.length ≤ b.length ∧
  ∀ (i : ℕ) (z z' : CalmZone), a[i]? = some z → b[i]? = some z' →
    z'.id = z.id ∧ z'.center = z.center ∧ z'.radius = z.radius

/-! Theorems. -/

/-- C7: for every walk session whose `moodEntries` list is empty,
`generateSessionInsights` returns exactly the string
"No mood data recorded for this walk." (the guard returns before any other
computation on the entries). -/
theorem generateSessionInsights_empty (hourOf : ℤ → ℤ)
    (dist : Location → Location → ℚ) (session : WalkSession)
    (h : session.moodEntries = []) :
    generateSessionInsights hourOf dist session =
      "No mood data recorded for this walk." := by
  unfold generateSessionInsights
  rw [h]
  rfl

/-- Witness for C7 at a concrete empty session. -/
theorem generateSessionInsights_empty_witness :
    generateSessionInsights hour0 dist0 emptySession =
      "No mood data recorded for this walk." :=
  generateSessionInsights_empty hour0 dist0 emptySession rfl

/-- C8: the fallback route generator uses step count
`max 3 (min 8 ⌊D / 200⌋)` for the straight-line distance `D` between start
and end, and always produces between 4 and 9 waypoints. -/
theorem fallback_waypoint_count (dist : Location → Location → ℚ) (rand : ℕ → ℚ)
    (start endLoc : Location) :
    fallbackSteps (dist start endLoc) =
        max 3 (min 8 (Int.floor (dist start endLoc / 200))) ∧
    (generateIntermediateWaypoints dist rand start endLoc).length =
        (fallbackSteps (dist start endLoc)).toNat + 1 ∧
    4 ≤ (generateIntermediateWaypoints dist rand start endLoc).length ∧
    (generateIntermediateWaypoints dist rand start endLoc).length ≤ 9 := by
  have hlen : (generateIntermediateWaypoints dist rand start endLoc).length =
      (fallbackSteps (dist start endLoc)).toNat + 1 := by
    unfold generateIntermediateWaypoints
    simp
  have h3 : (3 : ℤ) ≤ fallbackSteps (dist start endLoc) := le_max_left _ _
  have h8 : fallbackSteps (dist start endLoc) ≤ 8 :=
    max_le (by norm_num) (min_le_left _ _)
  have h3' : 3 ≤ (fallbackSteps (dist start endLoc)).toNat := by
    have := Int.toNat_le_toNat h3
    simpa using this
  have h8' : (fallbackSteps (dist start endLoc)).toNat ≤ 8 := by
    have := Int.toNat_le_toNat h8
    simpa using this
  refine ⟨rfl, hlen, ?_, ?_⟩ <;> rw [hlen] <;> omega

/-- C6 counterexample: with a concrete jitter outcome (`Math.random()`
returning 1 everywhere) the first generated waypoint does not equal the start
location's exact latitude/longitude — the code jitters every waypoint,
including the first and last. -/
theorem fallback_first_waypoint_jittered :
    (generateIntermediateWaypoints dist0 (fun _ => 1) locO locO).head? ≠
      some { latitude := locO.latitude, longitude := locO.longitude } := by
  have hsteps : fallbackSteps (dist0 locO locO) = 3 := by
    have h0 : dist0 locO locO = 0 := rfl
    rw [fallbackSteps, h0]
    norm_num
  simp only [generateIntermediateWaypoints, hsteps]
  rw [show ((3 : ℤ).toNat + 1) = 0 + 1 + 1 + 1 + 1 from rfl]
  rw [List.range_succ_eq_map]
  simp only [List.map_cons, List.head?_cons, ne_eq, Option.some.injEq]
  intro h
  have hlat := congrArg RoutePoint.latitude h
  simp only [locO] at hlat
  norm_num at hlat

/-- C6 (amended): the fallback route generator applies its random jitter to
every waypoint including the endpoints: the first waypoint equals the start's
latitude/longitude plus that waypoint's own jitter (similarly the last
waypoint and the end location); the endpoints are exact only when the jitter
terms vanish. -/
theorem fallback_endpoints_lerp_jitter (dist : Location → Location → ℚ)
    (rand : ℕ → ℚ) (start endLoc : Location) :
    (generateIntermediateWaypoints dist rand start endLoc).head? =
      some { latitude := start.latitude + (rand 0 - 1/2) * (1/10000),
             longitude := start.longitude + (rand 1 - 1/2) * (1/10000) } ∧
    (generateIntermediateWaypoints dist rand start endLoc).getLast? =
      some { latitude := endLoc.latitude +
               (rand (2 * (fallbackSteps (dist start endLoc)).toNat) - 1/2) * (1/10000),
             longitude := endLoc.longitude +
               (rand (2 * (fallbackSteps (dist start endLoc)).toNat + 1) - 1/2) *
                 (1/10000) } := by
  have hpos : 0 < (fallbackSteps (dist start endLoc)).toNat := by
    have h3 : (3 : ℤ) ≤ fallbackSteps (dist start endLoc) := le_max_left _ _
    have := Int.toNat_le_toNat h3
    omega
  constructor
  · simp only [generateIntermediateWaypoints]
    rw [List.range_succ_eq_map]
    simp only [List.map_cons, List.head?_cons, Option.some.injEq]
    simp [RoutePoint.mk.injEq]
  · simp only [generateIntermediateWaypoints]
    rw [List.range_succ, List.map_append]
    simp only [List.map_cons, List.map_nil]
    rw [List.getLast?_concat]
    have hne : ((fallbackSteps (dist start endLoc)).toNat : ℚ) ≠ 0 :=
      Nat.cast_ne_zero.mpr hpos.ne'
    have hdiv : ((fallbackSteps (dist start endLoc)).toNat : ℚ) /
        ((fallbackSteps (dist start endLoc)).toNat : ℚ) = 1 := div_self hne
    simp only [Option.some.injEq, RoutePoint.mk.injEq, hdiv]
    constructor <;> ring

/-- Rewriting the first element satisfying `p` in `pre ++ z :: post` when no
element of `pre` satisfies `p` and `z` does. -/
theorem updateFirst_append_cons (p : α → Bool) (f : α → α) (pre post : List α)
    (z : α) (hpre : ∀ y ∈ pre, p y = false) (hz : p z = true) :
    updateFirst p f (pre ++ z :: post) = pre ++ f z :: post := by
  induction pre with
  | nil => simp [updateFirst, hz]
  | cons a l ih =>
    have ha : p a = false := hpre a (List.mem_cons_self a l)
    have ih' := ih fun y hy => hpre y (List.mem_cons_of_mem a hy)
    simp [updateFirst, ha, ih']

/-- C1: `updateZonesFromSession` clusters the session's entries at radius 30
and folds the per-cluster rule over the stores; a cluster produces no update
unless it has at least 2 members and stress rate above 0.6 (checked first) or
calm rate above 0.6; a qualifying cluster with no existing matching-kind zone
strictly within 50 m of its center appends exactly one new zone with radius
30, score equal to the cluster's rate, count equal to its member count, and
last-timestamp the maximum member timestamp. -/
theorem updateZones_classification (dist : Location → Location → ℚ)
    (fresh : ℕ → String) (session : WalkSession) (czs : List CalmZone)
    (szs : List StressZone) :
    updateZonesFromSession dist fresh session czs szs =
      (clusterNearbyEntries dist session.moodEntries 30).foldl
        (processCluster dist fresh)
        { calmZones := czs, stressZones := szs, counter := 0 } ∧
    (∀ (st : ZoneState) (c : Cluster),
        ¬ (stressRate c.entries > 3/5 ∧ c.entries.length ≥ 2) →
        ¬ (calmRate c.entries > 3/5 ∧ c.entries.length ≥ 2) →
        processCluster dist fresh st c = st) ∧
    (∀ (st : ZoneState) (c : Cluster),
        stressRate c.entries > 3/5 → c.entries.length ≥ 2 →
        (∀ z ∈ st.stressZones, ¬ dist z.center c.center < 50) →
        processCluster dist fresh st c =
          { st with
              stressZones := st.stressZones ++
                [{ id := fresh st.counter, center := c.center, radius := 30,
                   stressScore := stressRate c.entries,
                   stressCount := c.entries.length,
                   lastStressed := maxTimestamp c.entries }],
              counter := st.counter + 1 }) ∧
    (∀ (st : ZoneState) (c : Cluster),
        ¬ (stressRate c.entries > 3/5 ∧ c.entries.length ≥ 2) →
        calmRate c.entries > 3/5 → c.entries.length ≥ 2 →
        (∀ z ∈ st.calmZones, ¬ dist z.center c.center < 50) →
        processCluster dist fresh st c =
          { st with
              calmZones := st.calmZones ++
                [{ id := fresh st.counter, center := c.center, radius := 30,
                   calmScore := calmRate c.entries,
                   visitCount := c.entries.length,
                   lastVisited := maxTimestamp c.entries }],
              counter := st.counter + 1 }) := by
  refine ⟨rfl, ?_, ?_, ?_⟩
  · intro st c h1 h2
    simp only [processCluster]
    rw [if_neg h1, if_neg h2]
  · intro st c h1 h2 h3
    simp only [processCluster]
    rw [if_pos ⟨h1, h2⟩]
    rw [if_neg ?noStress]
    case noStress =>
      intro hc
      obtain ⟨z, hz, hd⟩ := List.any_eq_true.mp hc
      exact h3 z hz (of_decide_eq_true hd)
  · intro st c hns h1 h2 h3
    simp only [processCluster]
    rw [if_neg hns, if_pos ⟨h1, h2⟩]
    rw [if_neg ?noCalm]
    case noCalm =>
      intro hc
      obtain ⟨z, hz, hd⟩ := List.any_eq_true.mp hc
      exact h3 z hz (of_decide_eq_true hd)

/-- Witness for C1: the stress-creation rule at a concrete two-member stressed
cluster and empty stores. -/
theorem updateZones_classification_witness :
    processCluster dist0 fresh0
        { calmZones := [], stressZones := [], counter := 0 } clusterW =
      { calmZones := [],
        stressZones := [⟨"fresh", locO, 30, 1, 2, 20⟩],
        counter := 1 } := by
  refine Eq.trans
    ((updateZones_classification dist0 fresh0 sessionTwoStressed [] []).2.2.1
      { calmZones := [], stressZones := [], counter := 0 } clusterW ?_ ?_ ?_) ?_
  · norm_num [stressRate, clusterW, entryStress1, entryStress2, List.filter]
  · simp [clusterW]
  · simp
  · norm_num [stressRate, clusterW, entryStress1, entryStress2, List.filter,
      maxTimestamp, fresh0]

/-- C2: when a qualifying cluster matches an existing zone of its kind (the
first store entry strictly within 50 m of the cluster center, with score at
most 1), `processCluster` rewrites exactly that record: its count grows by the
cluster's member count, its score becomes `min 1 (score + 0.1)` (hence stays
at most 1), its last-timestamp becomes the maximum of the old value and the
cluster's maximum member timestamp (hence never decreases), and no new zone is
created (the store keeps its length and the counter is unchanged). -/
theorem updateZones_merge_invariants (dist : Location → Location → ℚ)
    (fresh : ℕ → String) :
    (∀ (st : ZoneState) (c : Cluster) (pre post : List StressZone) (z : StressZone),
        stressRate c.entries > 3/5 → c.entries.length ≥ 2 →
        st.stressZones = pre ++ z :: post →
        (∀ y ∈ pre, ¬ dist y.center c.center < 50) →
        dist z.center c.center < 50 → z.stressScore ≤ 1 →
        processCluster dist fresh st c =
          { st with stressZones := pre ++
              { z with stressCount := z.stressCount + c.entries.length,
                       stressScore := min 1 (z.stressScore + 1/10),
                       lastStressed := max z.lastStressed (maxTimestamp c.entries) }
                :: post } ∧
        z.stressCount ≤ z.stressCount + c.entries.length ∧
        min 1 (z.stressScore + 1/10) ≤ 1 ∧
        z.lastStressed ≤ max z.lastStressed (maxTimestamp c.entries) ∧
        (pre ++
            ({ z with stressCount := z.stressCount + c.entries.length,
                      stressScore := min 1 (z.stressScore + 1/10),
                      lastStressed := max z.lastStressed (maxTimestamp c.entries) } :
              StressZone) :: post).length = st.stressZones.length) ∧
    (∀ (st : ZoneState) (c : Cluster) (pre post : List CalmZone) (z : CalmZone),
        ¬ (stressRate c.entries > 3/5 ∧ c.entries.length ≥ 2) →
        calmRate c.entries > 3/5 → c.entries.length ≥ 2 →
        st.calmZones = pre ++ z :: post →
        (∀ y ∈ pre, ¬ dist y.center c.center < 50) →
        dist z.center c.center < 50 → z.calmScore ≤ 1 →
        processCluster dist fresh st c =
          { st with calmZones := pre ++
              { z with visitCount := z.visitCount + c.entries.length,
                       calmScore := min 1 (z.calmScore + 1/10),
                       lastVisited := max z.lastVisited (maxTimestamp c.entries) }
                :: post } ∧
        z.visitCount ≤ z.visitCount + c.entries.length ∧
        min 1 (z.calmScore + 1/10) ≤ 1 ∧
        z.lastVisited ≤ max z.lastVisited (maxTimestamp c.entries) ∧
        (pre ++
            ({ z with visitCount := z.visitCount + c.entries.length,
                      calmScore := min 1 (z.calmScore + 1/10),
                      lastVisited := max z.lastVisited (maxTimestamp c.entries) } :
              CalmZone) :: post).length = st.calmZones.length) := by
  constructor
  · intro st c pre post z h1 h2 hst hpre hz hsc
    refine ⟨?_, Nat.le_add_right _ _, min_le_left _ _, le_max_left _ _, by
      rw [hst]; simp⟩
    simp only [processCluster]
    rw [if_pos ⟨h1, h2⟩]
    rw [if_pos ?hasStress]
    case hasStress =>
      refine List.any_eq_true.mpr ⟨z, ?_, decide_eq_true hz⟩
      rw [hst]
      exact List.mem_append_right _ (List.mem_cons_self _ _)
    rw [hst, updateFirst_append_cons _ _ pre post z
      (fun y hy => decide_eq_false (hpre y hy)) (decide_eq_true hz)]
  · intro st c pre post z hns h1 h2 hst hpre hz hsc
    refine ⟨?_, Nat.le_add_right _ _, min_le_left _ _, le_max_left _ _, by
      rw [hst]; simp⟩
    simp only [processCluster]
    rw [if_neg hns, if_pos ⟨h1, h2⟩]
    rw [if_pos ?hasCalm]
    case hasCalm =>
      refine List.any_eq_true.mpr ⟨z, ?_, decide_eq_true hz⟩
      rw [hst]
      exact List.mem_append_right _ (List.mem_cons_self _ _)
    rw [hst, updateFirst_append_cons _ _ pre post z
      (fun y hy => decide_eq_false (hpre y hy)) (decide_eq_true hz)]

/-- Witness for C2: merging the concrete two-member stressed cluster into a
store holding one matching stress zone. -/
theorem updateZones_merge_invariants_witness :
    processCluster dist0 fresh0
        { calmZones := [], stressZones := [zoneS0], counter := 0 } clusterW =
      { calmZones := [],
        stressZones := [⟨"z0", locO, 30, 3/5, 3, 20⟩],
        counter := 0 } := by
  have h := ((updateZones_merge_invariants dist0 fresh0).1
    { calmZones := [], stressZones := [zoneS0], counter := 0 } clusterW [] [] zoneS0
    (by norm_num [stressRate, clusterW, entryStress1, entryStress2, List.filter])
    (by simp [clusterW])
    (by simp)
    (by simp)
    (by norm_num [dist0])
    (by norm_num [zoneS0])).1
  refine h.trans ?_
  norm_num [zoneS0, clusterW, maxTimestamp, entryStress1, entryStress2]

/-- C5 counterexample: a session whose single stressed cluster merges into the
one existing stress zone mutates that shared zone record in place, so the
caller's input array no longer holds its original record after the call. -/
theorem updateZones_mutates_input_store :
    inputStressZonesAfterCall dist0 fresh0 sessionTwoStressed [] [zoneS0] ≠
      [zoneS0] := by
  have hclusters : clusterNearbyEntries dist0 sessionTwoStressed.moodEntries 30 =
      [clusterW] := by
    simp [clusterNearbyEntries, sessionTwoStressed, clusterGo, addNearby, dist0,
      entryStress1, entryStress2, clusterW, locO]
  have hcond : stressRate clusterW.entries > 3/5 ∧ clusterW.entries.length ≥ 2 := by
    constructor
    · norm_num [stressRate, clusterW, entryStress1, entryStress2, List.filter]
    · norm_num [clusterW]
  rw [inputStressZonesAfterCall, updateZonesFromSession, hclusters]
  simp only [List.foldl_cons, List.foldl_nil, processCluster]
  rw [if_pos hcond, if_pos (by simp [dist0])]
  simp [updateFirst, dist0, zoneS0, clusterW, StressZone.mk.injEq]

/-- `updateFirst` keeps the list length. -/
theorem updateFirst_length (p : α → Bool) (f : α → α) (l : List α) :
    (updateFirst p f l).length = l.length := by
  induction l with
  | nil => rfl
  | cons x xs ih =>
    rw [updateFirst]
    split <;> simp [ih]

/-- Each position of `updateFirst p f l` holds either the original element or
its image under `f`. -/
theorem updateFirst_getElem? (p : α → Bool) (f : α → α) (l : List α) (i : ℕ) :
    (updateFirst p f l)[i]? = l[i]? ∨
      ∃ a, l[i]? = some a ∧ (updateFirst p f l)[i]? = some (f a) := by
  induction l generalizing i with
  | nil => left; rfl
  | cons x xs ih =>
    rw [updateFirst]
    by_cases hx : p x
    · rw [if_pos hx]
      cases i with
      | zero => right; exact ⟨x, by simp, by simp⟩
      | succ n => left; simp
    · rw [if_neg hx]
      cases i with
      | zero => left; simp
      | succ n => simpa using ih n

theorem zoneShapeStress_refl (a : List StressZone) : zoneShapeStress a a := by
  refine ⟨le_refl _, fun i z z' hz hz' => ?_⟩
  rw [hz] at hz'
  cases hz'
  exact ⟨rfl, rfl, rfl⟩

theorem zoneShapeCalm_refl (a : List CalmZone) : zoneShapeCalm a a := by
  refine ⟨le_refl _, fun i z z' hz hz' => ?_⟩
  rw [hz] at hz'
  cases hz'
  exact ⟨rfl, rfl, rfl⟩

theorem zoneShapeStress_trans {a b c : List StressZone}
    (h1 : zoneShapeStress a b) (h2 : zoneShapeStress b c) : zoneShapeStress a c := by
  refine ⟨h1.1.trans h2.1, fun i z z' hz hz' => ?_⟩
  have hia : i < a.length := by
    by_contra h
    push_neg at h
    rw [List.getElem?_eq_none h] at hz
    cases hz
  have hib : i < b.length := lt_of_lt_of_le hia h1.1
  rcases hy : b[i]? with _ | y
  · exact absurd (List.getElem?_eq_none_iff.mp hy) (by omega)
  · have g1 := h1.2 i z y hz hy
    have g2 := h2.2 i y z' hy hz'
    exact ⟨g2.1.trans g1.1, g2.2.1.trans g1.2.1, g2.2.2.trans g1.2.2⟩

theorem zoneShapeCalm_trans {a b c : List CalmZone}
    (h1 : zoneShapeCalm a b) (h2 : zoneShapeCalm b c) : zoneShapeCalm a c := by
  refine ⟨h1.1.trans h2.1, fun i z z' hz hz' => ?_⟩
  have hia : i < a.length := by
    by_contra h
    push_neg at h
    rw [List.getElem?_eq_none h] at hz
    cases hz
  have hib : i < b.length := lt_of_lt_of_le hia h1.1
  rcases hy : b[i]? with _ | y
  · exact absurd (List.getElem?_eq_none_iff.mp hy) (by omega)
  · have g1 := h1.2 i z y hz hy
    have g2 := h2.2 i y z' hy hz'
    exact ⟨g2.1.trans g1.1, g2.2.1.trans g1.2.1, g2.2.2.trans g1.2.2⟩

/-- `updateFirst` with a field-preserving update function preserves shape. -/
theorem zoneShapeStress_updateFirst
    (pred : StressZone → Bool) (f : StressZone → StressZone)
    (hf : ∀ z, (f z).id = z.id ∧ (f z).center = z.center ∧ (f z).radius = z.radius)
    (l : List StressZone) : zoneShapeStress l (updateFirst pred f l) := by
  refine ⟨(updateFirst_length pred f l).ge, fun i z z' hz hz' => ?_⟩
  rcases updateFirst_getElem? pred f l i with h | ⟨a, ha, ha'⟩
  · rw [h, hz] at hz'
    cases hz'
    exact ⟨rfl, rfl, rfl⟩
  · rw [ha] at hz
    cases hz
    rw [ha'] at hz'
    cases hz'
    exact hf z

theorem zoneShapeCalm_updateFirst
    (pred : CalmZone → Bool) (f : CalmZone → CalmZone)
    (hf : ∀ z, (f z).id = z.id ∧ (f z).center = z.center ∧ (f z).radius = z.radius)
    (l : List CalmZone) : zoneShapeCalm l (updateFirst pred f l) := by
  refine ⟨(updateFirst_length pred f l).ge, fun i z z' hz hz' => ?_⟩
  rcases updateFirst_getElem? pred f l i with h | ⟨a, ha, ha'⟩
  · rw [h, hz] at hz'
    cases hz'
    exact ⟨rfl, rfl, rfl⟩
  · rw [ha] at hz
    cases hz
    rw [ha'] at hz'
    cases hz'
    exact hf z

theorem zoneShapeStress_append (l t : List StressZone) :
    zoneShapeStress l (l ++ t) := by
  refine ⟨by simp, fun i z z' hz hz' => ?_⟩
  have hia : i < l.length := by
    by_contra h
    push_neg at h
    rw [List.getElem?_eq_none h] at hz
    cases hz
  rw [List.getElem?_append, if_pos hia, hz] at hz'
  cases hz'
  exact ⟨rfl, rfl, rfl⟩

theorem zoneShapeCalm_append (l t : List CalmZone) :
    zoneShapeCalm l (l ++ t) := by
  refine ⟨by simp, fun i z z' hz hz' => ?_⟩
  have hia : i < l.length := by
    by_contra h
    push_neg at h
    rw [List.getElem?_eq_none h] at hz
    cases hz
  rw [List.getElem?_append, if_pos hia, hz] at hz'
  cases hz'
  exact ⟨rfl, rfl, rfl⟩

/-- One `processCluster` step never removes or reorders store records and
keeps each input record's id, center and radius. -/
theorem processCluster_shape (dist : Location → Location → ℚ) (fresh : ℕ → String)
    (st : ZoneState) (c : Cluster) :
    zoneShapeStress st.stressZones (processCluster dist fresh st c).stressZones ∧
    zoneShapeCalm st.calmZones (processCluster dist fresh st c).calmZones := by
  simp only [processCluster]
  by_cases hsq : stressRate c.entries > 3/5 ∧ c.entries.length ≥ 2
  · rw [if_pos hsq]
    by_cases hany :
        st.stressZones.any (fun z => decide (dist z.center c.center < 50)) = true
    · rw [if_pos hany]
      refine ⟨zoneShapeStress_updateFirst _ _ ?_ _, zoneShapeCalm_refl _⟩
      exact fun z => ⟨rfl, rfl, rfl⟩
    · rw [if_neg hany]
      exact ⟨zoneShapeStress_append _ _, zoneShapeCalm_refl _⟩
  · rw [if_neg hsq]
    by_cases hcq : calmRate c.entries > 3/5 ∧ c.entries.length ≥ 2
    · rw [if_pos hcq]
      by_cases hany :
          st.calmZones.any (fun z => decide (dist z.center c.center < 50)) = true
      · rw [if_pos hany]
        refine ⟨zoneShapeStress_refl _, zoneShapeCalm_updateFirst _ _ ?_ _⟩
        exact fun z => ⟨rfl, rfl, rfl⟩
      · rw [if_neg hany]
        exact ⟨zoneShapeStress_refl _, zoneShapeCalm_append _ _⟩
    · rw [if_neg hcq]
      exact ⟨zoneShapeStress_refl _, zoneShapeCalm_refl _⟩

/-- Folding `processCluster` preserves store shape. -/
theorem foldl_processCluster_shape (dist : Location → Location → ℚ)
    (fresh : ℕ → String) (clusters : List Cluster) :
    ∀ st : ZoneState,
      zoneShapeStress st.stressZones
        ((clusters.foldl (processCluster dist fresh) st).stressZones) ∧
      zoneShapeCalm st.calmZones
        ((clusters.foldl (processCluster dist fresh) st).calmZones) := by
  induction clusters with
  | nil => exact fun st => ⟨zoneShapeStress_refl _, zoneShapeCalm_refl _⟩
  | cons c cs ih =>
    intro st
    have h1 := processCluster_shape dist fresh st c
    have h2 := ih (processCluster dist fresh st c)
    exact ⟨zoneShapeStress_trans h1.1 h2.1, zoneShapeCalm_trans h1.2 h2.2⟩

/-- C5 (amended): `updateZonesFromSession` returns fresh array containers that
extend the inputs — input records are never removed or reordered, and each
input position's record keeps its id, center and radius (only score, count and
last-timestamp may change) — but a merge mutates the matched shared record in
place, so the caller's input arrays observe those merged-record updates (their
contents after the call are the first `n` records of the returned stores)
rather than remaining unchanged. -/
theorem updateZones_extends_stores (dist : Location → Location → ℚ)
    (fresh : ℕ → String) (session : WalkSession) (czs : List CalmZone)
    (szs : List StressZone) :
    czs.length ≤
      (updateZonesFromSession dist fresh session czs szs).calmZones.length ∧
    szs.length ≤
      (updateZonesFromSession dist fresh session czs szs).stressZones.length ∧
    (∀ (i : ℕ) (z z' : StressZone), szs[i]? = some z →
      (updateZonesFromSession dist fresh session czs szs).stressZones[i]? = some z' →
      z'.id = z.id ∧ z'.center = z.center ∧ z'.radius = z.radius) ∧
    (∀ (i : ℕ) (z z' : CalmZone), czs[i]? = some z →
      (updateZonesFromSession dist fresh session czs szs).calmZones[i]? = some z' →
      z'.id = z.id ∧ z'.center = z.center ∧ z'.radius = z.radius) := by
  have h := foldl_processCluster_shape dist fresh
    (clusterNearbyEntries dist session.moodEntries 30)
    { calmZones := czs, stressZones := szs, counter := 0 }
  exact ⟨h.2.1, h.1.1, h.1.2, h.2.2⟩

/-- Witness for C5 (amended) at a concrete store. -/
theorem updateZones_extends_stores_witness :
    zoneS0.id = zoneS0.id ∧ zoneS0.center = zoneS0.center ∧
      zoneS0.radius = zoneS0.radius :=
  (updateZones_extends_stores dist0 fresh0 emptySession [] [zoneS0]).2.2.1
    0 zoneS0 zoneS0 rfl rfl

/-- The strict-greater reduce of `generateRouteSuggestion` picks an element
whose calm score is the maximum. -/
theorem bestCalm_score (z : CalmZone) (zs : List CalmZone) :
    (zs.foldl
        (fun best current =>
          if current.calmScore > best.calmScore then current else best) z).calmScore =
      (zs.map CalmZone.calmScore).foldl max z.calmScore := by
  induction zs generalizing z with
  | nil => rfl
  | cons c cs ih =>
    simp only [List.foldl_cons, List.map_cons]
    rw [ih]
    congr 1
    by_cases h : c.calmScore > z.calmScore
    · rw [if_pos h, max_eq_right h.le]
    · rw [if_neg h, max_eq_left (not_lt.mp h)]

/-- C9: the simple suggestion generator's calm score is
`clamp(0.5 + 0.3 s − 0.2 k, 0, 1)` where `s` is the highest calm score among
calm zones within 200 m of both endpoints (0 when none) and `k` the number of
stress zones within 200 m of both endpoints; the estimated duration is
`round(distance_km × 12)` minutes; and the ids of all considered nearby zones
are recorded, influential or not. -/
theorem generateRouteSuggestion_spec (dist : Location → Location → ℚ)
    (routeId : String) (start endLoc : Location) (czs : List CalmZone)
    (szs : List StressZone) :
    (generateRouteSuggestion dist routeId start endLoc czs szs).calmScore =
      max 0 (min 1 (1/2 + (3/10) *
        highestCalmScore (czs.filter fun zone =>
          decide (dist start zone.center < 200 ∧ dist endLoc zone.center < 200)) -
        (1/5) * (((szs.filter fun zone =>
          decide (dist start zone.center < 200 ∧ dist endLoc zone.center < 200)).length :
            ℚ)))) ∧
    (generateRouteSuggestion dist routeId start endLoc czs szs).estimatedDuration =
      jsRound (dist start endLoc / 1000 * 12) ∧
    (generateRouteSuggestion dist routeId start endLoc czs szs).avoidsStressZones =
      (szs.filter fun zone =>
        decide (dist start zone.center < 200 ∧ dist endLoc zone.center < 200)).map
          StressZone.id ∧
    (generateRouteSuggestion dist routeId start endLoc czs szs).includesCalmZones =
      (czs.filter fun zone =>
        decide (dist start zone.center < 200 ∧ dist endLoc zone.center < 200)).map
          CalmZone.id := by
  refine ⟨?_, rfl, rfl, rfl⟩
  simp only [generateRouteSuggestion]
  cases hnc : czs.filter fun zone =>
      decide (dist start zone.center < 200 ∧ dist endLoc zone.center < 200) with
  | nil =>
    simp only [hnc, highestCalmScore]
    congr 1
    congr 1
    ring
  | cons z zs =>
    simp only [hnc, highestCalmScore]
    rw [bestCalm_score]
    congr 1
    congr 1
    ring

/-- Full characterisation of one `zoneScan` pass: the score shifts by `delta`
per containing zone, previously recorded ids persist, dedup is preserved, and
every containing zone's id ends up recorded. -/
theorem zoneScan_spec {α : Type} (dist : Location → Location → ℚ) (pl : Location)
    (delta : ℚ) (zid : α → String) (zcenter : α → Location) (zradius : α → ℚ) :
    ∀ (zones : List α) (s : ℚ) (ids : List String),
      (zoneScan dist pl delta zid zcenter zradius zones (s, ids)).1 =
        s + delta * ((zones.filter fun z =>
          decide (dist (zcenter z) pl ≤ zradius z)).length : ℚ) ∧
      (∀ x ∈ ids, x ∈ (zoneScan dist pl delta zid zcenter zradius zones (s, ids)).2) ∧
      (ids.Nodup → (zoneScan dist pl delta zid zcenter zradius zones (s, ids)).2.Nodup) ∧
      (∀ z ∈ zones, dist (zcenter z) pl ≤ zradius z →
        zid z ∈ (zoneScan dist pl delta zid zcenter zradius zones (s, ids)).2) := by
  intro zones
  induction zones with
  | nil =>
    intro s ids
    exact ⟨by simp [zoneScan], fun x hx => hx, fun h => h, by simp⟩
  | cons z zs ih =>
    intro s ids
    have hcons : ∀ acc : ℚ × List String,
        zoneScan dist pl delta zid zcenter zradius (z :: zs) acc =
          zoneScan dist pl delta zid zcenter zradius zs
            (if dist (zcenter z) pl ≤ zradius z then
              (acc.1 + delta, if zid z ∈ acc.2 then acc.2 else acc.2 ++ [zid z])
            else acc) := by
      intro acc
      simp [zoneScan]
    by_cases hz : dist (zcenter z) pl ≤ zradius z
    · rw [hcons, if_pos hz]
      have ih' := ih (s + delta) (if zid z ∈ ids then ids else ids ++ [zid z])
      have hmem : ∀ x ∈ ids, x ∈ (if zid z ∈ ids then ids else ids ++ [zid z]) := by
        intro x hx
        split
        · exact hx
        · exact List.mem_append_left _ hx
      have hself : zid z ∈ (if zid z ∈ ids then ids else ids ++ [zid z]) := by
        split
        · assumption
        · exact List.mem_append_right _ (List.mem_singleton.mpr rfl)
      refine ⟨?_, ?_, ?_, ?_⟩
      · rw [ih'.1, List.filter_cons, if_pos (by simpa using hz)]
        simp only [List.length_cons]
        push_cast
        ring
      · exact fun x hx => ih'.2.1 x (hmem x hx)
      · intro hnd
        refine ih'.2.2.1 ?_
        split
        · exact hnd
        · next hni =>
          rw [List.nodup_append]
          exact ⟨hnd, List.nodup_singleton _, by simpa using hni⟩
      · intro w hw hwd
        rcases List.mem_cons.mp hw with hw | hw
        · subst hw
          exact ih'.2.1 _ hself
        · exact ih'.2.2.2 w hw hwd
    · rw [hcons, if_neg hz]
      have ih' := ih s ids
      refine ⟨?_, ih'.2.1, ih'.2.2.1, ?_⟩
      · rw [ih'.1, List.filter_cons, if_neg (by simpa using hz)]
      · intro w hw hwd
        rcases List.mem_cons.mp hw with hw | hw
        · subst hw
          exact absurd hwd hz
        · exact ih'.2.2.2 w hw hwd

/-- Full characterisation of the waypoint fold of `analyzeRouteOptimization`
before clamping. -/
theorem routeFold_spec (dist : Location → Location → ℚ) (czs : List CalmZone)
    (szs : List StressZone) :
    ∀ (ws : List RoutePoint) (s : ℚ) (av inc : List String),
      (ws.foldl (routeStep dist czs szs) (s, av, inc)).1 =
        s - (1/10) * (stressHits dist ws szs : ℚ) +
          (1/20) * (calmHits dist ws czs : ℚ) ∧
      (∀ x ∈ av, x ∈ (ws.foldl (routeStep dist czs szs) (s, av, inc)).2.1) ∧
      (∀ x ∈ inc, x ∈ (ws.foldl (routeStep dist czs szs) (s, av, inc)).2.2) ∧
      (av.Nodup → (ws.foldl (routeStep dist czs szs) (s, av, inc)).2.1.Nodup) ∧
      (inc.Nodup → (ws.foldl (routeStep dist czs szs) (s, av, inc)).2.2.Nodup) ∧
      (∀ z ∈ szs, (∃ p ∈ ws, dist z.center (toLoc p) ≤ z.radius) →
        z.id ∈ (ws.foldl (routeStep dist czs szs) (s, av, inc)).2.1) ∧
      (∀ z ∈ czs, (∃ p ∈ ws, dist z.center (toLoc p) ≤ z.radius) →
        z.id ∈ (ws.foldl (routeStep dist czs szs) (s, av, inc)).2.2) := by
  intro ws
  induction ws with
  | nil =>
    intro s av inc
    refine ⟨by simp [stressHits, calmHits], fun x hx => hx, fun x hx => hx,
      fun h => h, fun h => h, ?_, ?_⟩ <;> simp
  | cons p ws ih =>
    intro s av inc
    rw [List.foldl_cons]
    have hstep : routeStep dist czs szs (s, av, inc) p =
        ((zoneScan dist (toLoc p) (1/20) CalmZone.id CalmZone.center CalmZone.radius
            czs ((zoneScan dist (toLoc p) (-(1/10)) StressZone.id StressZone.center
              StressZone.radius szs (s, av)).1, inc)).1,
          (zoneScan dist (toLoc p) (-(1/10)) StressZone.id StressZone.center
            StressZone.radius szs (s, av)).2,
          (zoneScan dist (toLoc p) (1/20) CalmZone.id CalmZone.center CalmZone.radius
            czs ((zoneScan dist (toLoc p) (-(1/10)) StressZone.id StressZone.center
              StressZone.radius szs (s, av)).1, inc)).2) := rfl
    rw [hstep]
    have hs := zoneScan_spec dist (toLoc p) (-(1/10)) StressZone.id StressZone.center
      StressZone.radius szs s av
    have hc := zoneScan_spec dist (toLoc p) (1/20) CalmZone.id CalmZone.center
      CalmZone.radius czs
      ((zoneScan dist (toLoc p) (-(1/10)) StressZone.id StressZone.center
        StressZone.radius szs (s, av)).1) inc
    have ih' := ih
      ((zoneScan dist (toLoc p) (1/20) CalmZone.id CalmZone.center CalmZone.radius
          czs ((zoneScan dist (toLoc p) (-(1/10)) StressZone.id StressZone.center
            StressZone.radius szs (s, av)).1, inc)).1)
      ((zoneScan dist (toLoc p) (-(1/10)) StressZone.id StressZone.center
          StressZone.radius szs (s, av)).2)
      ((zoneScan dist (toLoc p) (1/20) CalmZone.id CalmZone.center CalmZone.radius
          czs ((zoneScan dist (toLoc p) (-(1/10)) StressZone.id StressZone.center
            StressZone.radius szs (s, av)).1, inc)).2)
    refine ⟨?_, ?_, ?_, ?_, ?_, ?_, ?_⟩
    · rw [ih'.1, hc.1, hs.1]
      have hsh : stressHits dist (p :: ws) szs =
          (szs.filter fun z =>
            decide (dist z.center (toLoc p) ≤ z.radius)).length + stressHits dist ws szs := by
        simp [stressHits]
      have hch : calmHits dist (p :: ws) czs =
          (czs.filter fun z =>
            decide (dist z.center (toLoc p) ≤ z.radius)).length + calmHits dist ws czs := by
        simp [calmHits]
      rw [hsh, hch]
      push_cast
      ring
    · exact fun x hx => ih'.2.1 x (hs.2.1 x hx)
    · exact fun x hx => ih'.2.2.1 x (hc.2.1 x hx)
    · exact fun hnd => ih'.2.2.2.1 (hs.2.2.1 hnd)
    · exact fun hnd => ih'.2.2.2.2.1 (hc.2.2.1 hnd)
    · intro z hz ⟨q, hq, hqd⟩
      rcases List.mem_cons.mp hq with hq | hq
      · subst hq
        exact ih'.2.1 _ (hs.2.2.2 z hz hqd)
      · exact ih'.2.2.2.2.2.1 z hz ⟨q, hq, hqd⟩
    · intro z hz ⟨q, hq, hqd⟩
      rcases List.mem_cons.mp hq with hq | hq
      · subst hq
        exact ih'.2.2.1 _ (hc.2.2.2 z hz hqd)
      · exact ih'.2.2.2.2.2.2 z hz ⟨q, hq, hqd⟩

/-- C4: the route calmness score equals
`clamp(0.5 − 0.1·S + 0.05·C, 0, 1)` where `S`/`C` count (waypoint, zone)
containment pairs; the returned score is always within [0,1]; each touched
zone's id appears exactly once in the corresponding avoid/include list; and a
single waypoint inside exactly one stress zone with no calm zones scores
exactly 0.4. -/
theorem analyzeRouteOptimization_spec (dist : Location → Location → ℚ)
    (waypoints : List RoutePoint) (czs : List CalmZone) (szs : List StressZone) :
    (analyzeRouteOptimization dist waypoints czs szs).1 =
      max 0 (min 1 (1/2 - (1/10) * (stressHits dist waypoints szs : ℚ) +
        (1/20) * (calmHits dist waypoints czs : ℚ))) ∧
    0 ≤ (analyzeRouteOptimization dist waypoints czs szs).1 ∧
    (analyzeRouteOptimization dist waypoints czs szs).1 ≤ 1 ∧
    (∀ z ∈ szs, (∃ p ∈ waypoints, dist z.center (toLoc p) ≤ z.radius) →
      (analyzeRouteOptimization dist waypoints czs szs).2.1.count z.id = 1) ∧
    (∀ z ∈ czs, (∃ p ∈ waypoints, dist z.center (toLoc p) ≤ z.radius) →
      (analyzeRouteOptimization dist waypoints czs szs).2.2.count z.id = 1) ∧
    (∀ (p : RoutePoint) (z : StressZone), dist z.center (toLoc p) ≤ z.radius →
      analyzeRouteOptimization dist [p] [] [z] = (2/5, [z.id], [])) := by
  have h := routeFold_spec dist czs szs waypoints (1/2) [] []
  refine ⟨?_, ?_, ?_, ?_, ?_, ?_⟩
  · simp only [analyzeRouteOptimization]
    rw [h.1]
  · simp only [analyzeRouteOptimization]
    exact le_max_left _ _
  · simp only [analyzeRouteOptimization]
    exact max_le (by norm_num) (min_le_left _ _)
  · intro z hz hp
    have hmem := h.2.2.2.2.2.1 z hz hp
    have hnd := h.2.2.2.1 (List.nodup_nil)
    exact List.count_eq_one_of_mem hnd hmem
  · intro z hz hp
    have hmem := h.2.2.2.2.2.2 z hz hp
    have hnd := h.2.2.2.2.1 (List.nodup_nil)
    exact List.count_eq_one_of_mem hnd hmem
  · intro p z hzd
    simp only [analyzeRouteOptimization, List.foldl_cons, List.foldl_nil]
    have hstep : routeStep dist [] [z] ((1:ℚ)/2, ([] : List String),
        ([] : List String)) p = (1/2 + -(1/10), [z.id], []) := by
      simp only [routeStep, zoneScan, List.foldl_cons, List.foldl_nil]
      rw [if_pos hzd]
      simp
    rw [hstep]
    norm_num

/-- Witness for C4: a concrete single-waypoint route through one stress zone. -/
theorem analyzeRouteOptimization_witness :
    analyzeRouteOptimization dist0 [pt0] [] [zoneS0] = (2/5, ["z0"], []) :=
  (analyzeRouteOptimization_spec dist0 [pt0] [] [zoneS0]).2.2.2.2.2 pt0 zoneS0
    (by norm_num [dist0, zoneS0])

/-- Two strings with distinct first characters differ. -/
theorem str_ne_of_head (a b : String) (c d : Char) (ha : a.data.head? = some c)
    (hb : b.data.head? = some d) (hcd : c ≠ d) : a ≠ b := by
  intro e
  subst e
  exact hcd (Option.some_inj.mp (ha.symm.trans hb))

theorem toneSentence_head (sc cc : ℕ) (sp cp : ℤ) :
    (toneSentence sc cc sp cp).data.head? = some 'T' := by
  unfold toneSentence
  split
  · simp only [String.data_append]
    rfl
  · split
    · simp only [String.data_append]
      rfl
    · rfl

theorem noiseSentence_head (n : ℕ) (k : ℤ) :
    (noiseSentence n k).data.head? = some 'H' := by
  unfold noiseSentence
  simp only [String.data_append]
  rfl

theorem timeSentence_head (p : String) :
    (timeSentence p).data.head? = some 'C' := by
  unfold timeSentence
  simp only [String.data_append]
  rfl

/-- A guarded optional `timeSentence` can only yield a `timeSentence`. -/
theorem opt_ite_timeSentence {c : Prop} [Decidable c] (x s : String)
    (h : (if c then some (timeSentence x) else none) = some s) :
    ∃ p, s = timeSentence p := by
  split at h
  · exact ⟨x, (Option.some_inj.mp h).symm⟩
  · cases h

/-- `analyzeTimePatterns` only ever emits a `timeSentence`. -/
theorem analyzeTimePatterns_shape (m a e : List MoodEntry) (s : String)
    (h : analyzeTimePatterns m a e = some s) : ∃ p, s = timeSentence p := by
  simp only [analyzeTimePatterns] at h
  exact opt_ite_timeSentence _ _ h

/-- Every sentence of the insight list is a tone, noise, time or location
sentence. -/
theorem mem_insightsList (hourOf : ℤ → ℤ) (dist : Location → Location → ℚ)
    (session : WalkSession) (s : String)
    (hs : s ∈ insightsList hourOf dist session) :
    (∃ sc cc sp cp, s = toneSentence sc cc sp cp) ∨
    (∃ n k, s = noiseSentence n k) ∨
    (∃ p, s = timeSentence p) ∨
    analyzeLocationPatterns dist session.moodEntries = some s := by
  simp only [insightsList] at hs
  rcases List.mem_cons.mp hs with h | h
  · exact Or.inl ⟨_, _, _, _, h⟩
  rcases List.mem_append.mp h with h | h
  · rcases List.mem_append.mp h with h | h
    · have hx := Option.mem_def.mp (Option.mem_toList.mp h)
      split at hx
      · exact Or.inr (Or.inl ⟨_, _, (Option.some_inj.mp hx).symm⟩)
      · cases hx
    · have hx := Option.mem_def.mp (Option.mem_toList.mp h)
      obtain ⟨p, hp⟩ := analyzeTimePatterns_shape _ _ _ _ hx
      exact Or.inr (Or.inr (Or.inl ⟨p, hp⟩))
  · exact Or.inr (Or.inr (Or.inr (Option.mem_def.mp (Option.mem_toList.mp h))))

/-- C10: a session with fewer than 3 mood entries never receives a
location-pattern sentence: `analyzeLocationPatterns` yields nothing, and
neither the stress-location sentence nor the calm-location sentence occurs
among the insight sentences joined into the session insight string. -/
theorem insights_no_location_sentence (hourOf : ℤ → ℤ)
    (dist : Location → Location → ℚ) (session : WalkSession)
    (h : session.moodEntries.length < 3) :
    analyzeLocationPatterns dist session.moodEntries = none ∧
    "Some areas consistently triggered stress. Consider avoiding these locations."
      ∉ insightsList hourOf dist session ∧
    "Some areas consistently provided calm moments. These might be good rest spots."
      ∉ insightsList hourOf dist session := by
  have hloc : analyzeLocationPatterns dist session.moodEntries = none := by
    unfold analyzeLocationPatterns
    rw [if_pos h]
  have hS1 : ("Some areas consistently triggered stress. Consider avoiding these locations." : String).data.head? = some 'S' := rfl
  have hS2 : ("Some areas consistently provided calm moments. These might be good rest spots." : String).data.head? = some 'S' := rfl
  refine ⟨hloc, ?_, ?_⟩
  · intro hmem
    rcases mem_insightsList hourOf dist session _ hmem with
      ⟨sc, cc, sp, cp, he⟩ | ⟨n, k, he⟩ | ⟨p, he⟩ | he
    · exact str_ne_of_head _ _ 'T' 'S' (toneSentence_head sc cc sp cp) hS1
        (by decide) he.symm
    · exact str_ne_of_head _ _ 'H' 'S' (noiseSentence_head n k) hS1
        (by decide) he.symm
    · exact str_ne_of_head _ _ 'C' 'S' (timeSentence_head p) hS1
        (by decide) he.symm
    · rw [hloc] at he
      cases he
  · intro hmem
    rcases mem_insightsList hourOf dist session _ hmem with
      ⟨sc, cc, sp, cp, he⟩ | ⟨n, k, he⟩ | ⟨p, he⟩ | he
    · exact str_ne_of_head _ _ 'T' 'S' (toneSentence_head sc cc sp cp) hS2
        (by decide) he.symm
    · exact str_ne_of_head _ _ 'H' 'S' (noiseSentence_head n k) hS2
        (by decide) he.symm
    · exact str_ne_of_head _ _ 'C' 'S' (timeSentence_head p) hS2
        (by decide) he.symm
    · rw [hloc] at he
      cases he

/-- Witness for C10 at a concrete two-entry session. -/
theorem insights_no_location_sentence_witness :
    analyzeLocationPatterns dist0 sessionTwoStressed.moodEntries = none ∧
    "Some areas consistently triggered stress. Consider avoiding these locations."
      ∉ insightsList hour0 dist0 sessionTwoStressed ∧
    "Some areas consistently provided calm moments. These might be good rest spots."
      ∉ insightsList hour0 dist0 sessionTwoStressed :=
  insights_no_location_sentence hour0 dist0 sessionTwoStressed
    (by simp [sessionTwoStressed])

/-- The inner scan of `clusterNearbyEntries` appends a block `g` of gathered
members to the cluster and, in lockstep, their ids to the processed set; the
gathered members come from the scanned list, were unprocessed, and are not the
anchor. -/
theorem addNearby_foldl_spec (dist : Location → Location → ℚ) (radius : ℚ)
    (a : MoodEntry) (l : List MoodEntry) :
    ∀ (f₀ : List MoodEntry) (p₀ : List String), p₀.Nodup →
      ∃ g, l.foldl (addNearby dist radius a) (f₀, p₀) =
          (f₀ ++ g, p₀ ++ g.map MoodEntry.id) ∧
        (p₀ ++ g.map MoodEntry.id).Nodup ∧
        ∀ x ∈ g, x ∈ l ∧ x.id ∉ p₀ ∧ x.id ≠ a.id := by
  induction l with
  | nil =>
    intro f₀ p₀ hnd
    exact ⟨[], by simp, by simpa using hnd, by simp⟩
  | cons x l ih =>
    intro f₀ p₀ hnd
    rw [List.foldl_cons]
    by_cases hskip : x.id = a.id ∨ x.id ∈ p₀
    · have hstep : addNearby dist radius a (f₀, p₀) x = (f₀, p₀) := by
        simp only [addNearby]
        rw [if_pos hskip]
      rw [hstep]
      obtain ⟨g, hg1, hg2, hg3⟩ := ih f₀ p₀ hnd
      exact ⟨g, hg1, hg2, fun y hy =>
        ⟨List.mem_cons_of_mem x (hg3 y hy).1, (hg3 y hy).2.1, (hg3 y hy).2.2⟩⟩
    · push_neg at hskip
      by_cases hdist : dist a.location x.location ≤ radius
      · have hstep : addNearby dist radius a (f₀, p₀) x =
            (f₀ ++ [x], p₀ ++ [x.id]) := by
          simp only [addNearby]
          rw [if_neg (by push_neg; exact hskip), if_pos hdist]
        rw [hstep]
        have hnd' : (p₀ ++ [x.id]).Nodup := by
          rw [List.nodup_append]
          refine ⟨hnd, List.nodup_singleton _, ?_⟩
          intro y hy hz
          rw [List.mem_singleton] at hz
          subst hz
          exact hskip.2 hy
        obtain ⟨g, hg1, hg2, hg3⟩ := ih (f₀ ++ [x]) (p₀ ++ [x.id]) hnd'
        refine ⟨x :: g, ?_, ?_, ?_⟩
        · rw [hg1]
          simp [List.append_assoc]
        · rw [List.map_cons]
          have : p₀ ++ x.id :: g.map MoodEntry.id =
              (p₀ ++ [x.id]) ++ g.map MoodEntry.id := by
            simp [List.append_assoc]
          rw [this]
          exact hg2
        · intro y hy
          rcases List.mem_cons.mp hy with rfl | hy'
          · exact ⟨List.mem_cons_self _ _, hskip.2, hskip.1⟩
          · obtain ⟨m1, m2, m3⟩ := hg3 y hy'
            exact ⟨List.mem_cons_of_mem _ m1,
              fun hc => m2 (List.mem_append_left _ hc), m3⟩
      · have hstep : addNearby dist radius a (f₀, p₀) x = (f₀, p₀) := by
          simp only [addNearby]
          rw [if_neg (by push_neg; exact hskip), if_neg hdist]
        rw [hstep]
        obtain ⟨g, hg1, hg2, hg3⟩ := ih f₀ p₀ hnd
        exact ⟨g, hg1, hg2, fun y hy =>
          ⟨List.mem_cons_of_mem x (hg3 y hy).1, (hg3 y hy).2.1, (hg3 y hy).2.2⟩⟩

theorem clusterEntries_append (cs : List Cluster) (c : Cluster) :
    clusterEntries (cs ++ [c]) = clusterEntries cs ++ c.entries := by
  simp [clusterEntries]

/-- Invariant of the outer clustering loop: the processed-id set stays
duplicate-free and in bijection with the gathered cluster members, members
come from the input, every input item ends up processed, and every cluster is
anchored at its first member's location. -/
theorem clusterGo_spec (dist : Location → Location → ℚ) (radius : ℚ)
    (all : List MoodEntry) :
    ∀ (rem : List MoodEntry) (cs : List Cluster) (proc : List String),
      proc.Nodup →
      proc.Perm ((clusterEntries cs).map MoodEntry.id) →
      (∀ x ∈ clusterEntries cs, x ∈ all) →
      (∀ x ∈ rem, x ∈ all) →
      (∀ x ∈ all, x ∈ rem ∨ x.id ∈ proc) →
      (∀ c ∈ cs, ∃ a t, c.entries = a :: t ∧ c.center = a.location) →
      ((clusterGo dist radius all rem (cs, proc)).2.Nodup ∧
        (clusterGo dist radius all rem (cs, proc)).2.Perm
          ((clusterEntries (clusterGo dist radius all rem (cs, proc)).1).map
            MoodEntry.id) ∧
        (∀ x ∈ clusterEntries (clusterGo dist radius all rem (cs, proc)).1,
          x ∈ all) ∧
        (∀ x ∈ all, x.id ∈ (clusterGo dist radius all rem (cs, proc)).2) ∧
        (∀ c ∈ (clusterGo dist radius all rem (cs, proc)).1,
          ∃ a t, c.entries = a :: t ∧ c.center = a.location)) := by
  intro rem
  induction rem with
  | nil =>
    intro cs proc h1 h2 h3 h4 h5 h6
    refine ⟨h1, h2, h3, ?_, h6⟩
    intro x hx
    rcases h5 x hx with h | h
    · cases h
    · exact h
  | cons e rest ih =>
    intro cs proc h1 h2 h3 h4 h5 h6
    rw [clusterGo]
    by_cases he : e.id ∈ proc
    · rw [if_pos he]
      refine ih cs proc h1 h2 h3 (fun x hx => h4 x (List.mem_cons_of_mem e hx)) ?_ h6
      intro x hx
      rcases h5 x hx with h | h
      · rcases List.mem_cons.mp h with rfl | h'
        · exact Or.inr he
        · exact Or.inl h'
      · exact Or.inr h
    · rw [if_neg he]
      obtain ⟨g, hg1, hg2, hg3⟩ := addNearby_foldl_spec dist radius e all [] proc h1
      rw [hg1]
      have h1' : ((proc ++ g.map MoodEntry.id) ++ [e.id]).Nodup := by
        rw [List.nodup_append]
        refine ⟨by simpa using hg2, List.nodup_singleton _, ?_⟩
        intro y hy hz
        rw [List.mem_singleton] at hz
        subst hz
        rcases List.mem_append.mp hy with h | h
        · exact he h
        · obtain ⟨x, hx, hxid⟩ := List.mem_map.mp h
          exact (hg3 x hx).2.2 hxid
      have h2' : ((proc ++ g.map MoodEntry.id) ++ [e.id]).Perm
          ((clusterEntries (cs ++
            [{ center := e.location, entries := e :: g }])).map MoodEntry.id) := by
        rw [clusterEntries_append, List.map_append, List.map_cons]
        have ha : ((proc ++ g.map MoodEntry.id) ++ [e.id]).Perm
            (proc ++ (e.id :: g.map MoodEntry.id)) := by
          have heq : (proc ++ g.map MoodEntry.id) ++ [e.id] =
              proc ++ (g.map MoodEntry.id ++ [e.id]) := by
            simp [List.append_assoc]
          rw [heq]
          exact List.Perm.append_left proc (List.perm_append_singleton _ _)
        exact ha.trans (List.Perm.append_right _ h2)
      have h3' : ∀ x ∈ clusterEntries (cs ++
          [{ center := e.location, entries := e :: g }]), x ∈ all := by
        intro x hx
        rw [clusterEntries_append] at hx
        rcases List.mem_append.mp hx with h | h
        · exact h3 x h
        · rcases List.mem_cons.mp h with rfl | h'
          · exact h4 x (List.mem_cons_self _ _)
          · exact (hg3 x h').1
      have h5' : ∀ x ∈ all, x ∈ rest ∨
          x.id ∈ (proc ++ g.map MoodEntry.id) ++ [e.id] := by
        intro x hx
        rcases h5 x hx with h | h
        · rcases List.mem_cons.mp h with rfl | h'
          · exact Or.inr (List.mem_append_right _ (List.mem_singleton.mpr rfl))
          · exact Or.inl h'
        · exact Or.inr (List.mem_append_left _ (List.mem_append_left _ h))
      have h6' : ∀ c ∈ cs ++ [{ center := e.location, entries := e :: g }],
          ∃ a t, c.entries = a :: t ∧ c.center = a.location := by
        intro c hc
        rcases List.mem_append.mp hc with h | h
        · exact h6 c h
        · rw [List.mem_singleton] at h
          subst h
          exact ⟨e, g, rfl, rfl⟩
      exact ih (cs ++ [{ center := e.location, entries := e :: g }])
        ((proc ++ g.map MoodEntry.id) ++ [e.id]) h1' h2' h3'
        (fun x hx => h4 x (List.mem_cons_of_mem e hx)) h5' h6'

/-- C3: on entries with pairwise-distinct ids, `clusterNearbyEntries` returns
a partition of its input — the concatenation of all cluster member lists is a
permutation of the input (every entry in exactly one cluster, none dropped or
duplicated) — and every cluster is non-empty with its center fixed to the
location of its anchor (first) member, never a recomputed centroid. -/
theorem clusterNearbyEntries_partition (dist : Location → Location → ℚ)
    (entries : List MoodEntry) (radius : ℚ)
    (h : (entries.map MoodEntry.id).Nodup) :
    (clusterEntries (clusterNearbyEntries dist entries radius)).Perm entries ∧
    ∀ c ∈ clusterNearbyEntries dist entries radius,
      ∃ a t, c.entries = a :: t ∧ c.center = a.location := by
  unfold clusterNearbyEntries
  obtain ⟨hnd, hperm, hsub, hall, hshape⟩ :=
    clusterGo_spec dist radius entries entries [] [] List.nodup_nil
      (by simp [clusterEntries]) (by simp [clusterEntries])
      (fun x hx => hx) (fun x hx => Or.inl hx) (by simp)
  refine ⟨?_, hshape⟩
  have hflatnd : ((clusterEntries
      (clusterGo dist radius entries entries ([], [])).1).map MoodEntry.id).Nodup :=
    hperm.nodup_iff.mp hnd
  have hflat : (clusterEntries
      (clusterGo dist radius entries entries ([], [])).1).Nodup :=
    List.Nodup.of_map _ hflatnd
  have hent : entries.Nodup := List.Nodup.of_map _ h
  have hsub2 : ∀ x ∈ entries,
      x ∈ clusterEntries (clusterGo dist radius entries entries ([], [])).1 := by
    intro x hx
    have hid := hall x hx
    have hidm := hperm.mem_iff.mp hid
    obtain ⟨y, hy, hyid⟩ := List.mem_map.mp hidm
    have hyent := hsub y hy
    have hyx : y = x := List.inj_on_of_nodup_map h hyent hx hyid
    rwa [hyx] at hy
  apply List.perm_of_nodup_nodup_toFinset_eq hflat hent
  ext a
  simp only [List.mem_toFinset]
  exact ⟨fun ha => hsub a ha, fun ha => hsub2 a ha⟩

/-- Witness for C3 at two concrete distinct-id entries. -/
theorem clusterNearbyEntries_partition_witness :
    (clusterEntries (clusterNearbyEntries dist0 [entryStress1, entryStress2] 30)).Perm
      [entryStress1, entryStress2] ∧
    ∀ c ∈ clusterNearbyEntries dist0 [entryStress1, entryStress2] 30,
      ∃ a t, c.entries = a :: t ∧ c.center = a.location :=
  clusterNearbyEntries_partition dist0 [entryStress1, entryStress2] 30
    (by simp [entryStress1, entryStress2])

end Alzense
